import Mathlib

/-!
Verification development for the batch medical-prediction pipeline in
src/app.py (a Flask application).  The embedding models:

* `predict_disease` (src/app.py lines 22-39): the rule-based per-row
  predictor.  A pandas row is modelled as an association list from column
  names to cell values; `row.get(name, 0)` with a default is `Row.getD`.
  Python comparisons between a string cell and a number raise `TypeError`;
  this is modelled with `Except String`, and the short-circuit of the
  Python `and` is modelled by `andSC`.
* the batch run `df.apply(predict_disease, axis=1)` inside `index`
  (src/app.py lines 225-250): `runBatch`, which stops at the first raised
  exception, exactly as the apply call does (the surrounding try/except
  turns any exception into an aborted request with no results).
* pagination inside `results` (src/app.py lines 258-270): `paginate`,
  `total_pages`, `prevPage`, `nextPage` with the fixed page size 10.
* the histogram loop inside `results` (src/app.py lines 272-275):
  `disease_counts`, an association list in the insertion order of the
  Python dict literal, where incrementing an absent key raises `KeyError`
  (modelled as `Except.error`).
-/

/-- A cell value of a parsed spreadsheet row: either a number or a string.
Numbers are modelled as rationals. -/
inductive Cell where
  | num (q : ℚ)
  | str (s : String)
deriving DecidableEq, Repr

/-- A row is an association list from column name to cell value, the
shallow embedding of the pandas Series passed to `predict_disease`. -/
abbrev Row : Type := List (String × Cell)

/-- Embeds `row.get(name, 0)`: the value under the first binding of
`name`, or numeric `0` when the column is absent. -/
def Row.getD : Row → String → Cell
  | [], _ => Cell.num 0
  | (k, v) :: rest, name => if k = name then v else Row.getD rest name

/-- Embeds the Python comparison `v > c` for a cell against a numeric
constant: numeric cells compare, string cells raise `TypeError`. -/
def cellGt (v : Cell) (c : ℚ) : Except String Bool :=
  match v with
  | Cell.num q => Except.ok (decide (q > c))
  | Cell.str s => Except.error ("TypeError: str > int comparison on " ++ s)

/-- Embeds the Python comparison `v < c` for a cell against a numeric
constant: numeric cells compare, string cells raise `TypeError`. -/
def cellLt (v : Cell) (c : ℚ) : Except String Bool :=
  match v with
  | Cell.num q => Except.ok (decide (q < c))
  | Cell.str s => Except.error ("TypeError: str < int comparison on " ++ s)

/-- Short-circuit Python `and` over possibly-raising boolean
computations: the right operand is evaluated only when the left one
returned `true`. -/
def andSC (a : Except String Bool) (b : Unit → Except String Bool) :
    Except String Bool := do
  let x ← a
  if x then b () else pure false

/-- The tail of `predict_disease`: given the four rule outcomes, build
the diseases list by the append chain in source order and return the
comma-space join, or the literal "None" when no rule matched. -/
def render (c1 c2 c3 c4 : Bool) : String :=
  let diseases : List String :=
    (if c1 then ["Heart Disease"] else []) ++
    (if c2 then ["Diabetes"] else []) ++
    (if c3 then ["Asthma"] else []) ++
    (if c4 then ["Hypertension"] else [])
  if diseases.isEmpty then "None" else String.intercalate ", " diseases

/-- Embedding of `predict_disease` (src/app.py lines 22-39).  The four
features are read with default 0 (the Python locals age, bmi,
cholesterol, blood_pressure are inlined, which is sound because the get
calls are pure and cannot raise), then the four rule conditions are
evaluated in source order (with Python short-circuit `and`), and the
matched disease names are joined. -/
def predict_disease (row : Row) : Except String String := do
  let c1 ← andSC (cellGt (row.getD "Age") 50)
    (fun _ => cellGt (row.getD "Cholesterol") 240)
  let c2 ← cellGt (row.getD "BMI") 30
  let c3 ← andSC (cellLt (row.getD "Age") 30)
    (fun _ => cellLt (row.getD "BMI") 18)
  let c4 ← cellGt (row.getD "Blood Pressure") 140
  pure (render c1 c2 c3 c4)

/-- Embedding of the batch run `df.apply(predict_disease, axis=1)` in
`index`: every row is scored in order; the first raised exception aborts
the whole batch (the surrounding try/except produces an error page and
no result file).  There is no row-count check anywhere in `index`. -/
def runBatch (rows : List Row) : Except String (List String) :=
  rows.mapM predict_disease

/-- The fixed page size `per_page = 10` in `results` (src/app.py line 259). -/
def per_page : Nat := 10

/-- Embeds the slice `df.iloc[start:end]` of `results`
(src/app.py lines 260-262) with `start = (page - 1) * per_page` and
`end = start + per_page`, for page numbers from 1 up (nonnegative start). -/
def paginate {α : Type} (df : List α) (page : Nat) : List α :=
  (df.drop ((page - 1) * per_page)).take per_page

/-- Embeds `total_pages = (len(df) + per_page - 1) // per_page`
(src/app.py line 264). -/
def total_pages (len : Nat) : Nat := (len + per_page - 1) / per_page

/-- Embeds `prev = page - 1 if page > 1 else None` (src/app.py line 268). -/
def prevPage (page : Nat) : Option Nat :=
  if page > 1 then some (page - 1) else none

/-- Embeds `next = page + 1 if page < total_pages else None`
(src/app.py line 269). -/
def nextPage (page total : Nat) : Option Nat :=
  if page < total then some (page + 1) else none

/-- The histogram dict literal of `results` (src/app.py line 272), as an
association list in the insertion order of the Python dict: every known
label starts at count 0. -/
def initCounts : List (String × Nat) :=
  [("Heart Disease", 0), ("Asthma", 0), ("Diabetes", 0),
   ("Hypertension", 0), ("None", 0)]

/-- Embeds `disease_counts[disease] += 1`: increment the entry under the
key, or raise `KeyError` when the key is absent from the dict. -/
def incr : List (String × Nat) → String → Except String (List (String × Nat))
  | [], key => Except.error ("KeyError: " ++ key)
  | (k, v) :: rest, key =>
    if k = key then Except.ok ((k, v + 1) :: rest)
    else
      match incr rest key with
      | Except.ok r => Except.ok ((k, v) :: r)
      | Except.error e => Except.error e

/-- Character-level split on the two-character separator comma-space,
with Python `str.split` semantics: scan left to right, cut at each
non-overlapping occurrence of the separator.  `acc` holds the reversed
characters of the token being read. -/
def split2 (acc : List Char) : List Char → List (List Char)
  | [] => [acc.reverse]
  | [c] => [(c :: acc).reverse]
  | c1 :: c2 :: rest =>
    if c1 = ',' ∧ c2 = ' ' then acc.reverse :: split2 [] rest
    else split2 (c1 :: acc) (c2 :: rest)

/-- Embeds the Python split `str(pred).split(", ")`. -/
def pySplit (s : String) : List String :=
  (split2 [] s.toList).map (fun l => String.mk l)

/-- The inner loop `for disease in str(pred).split(", ")`: increment
each token in order; a raised `KeyError` propagates immediately. -/
def countTokens : List (String × Nat) → List String →
    Except String (List (String × Nat))
  | cs, [] => Except.ok cs
  | cs, t :: ts =>
    match incr cs t with
    | Except.ok cs1 => countTokens cs1 ts
    | Except.error e => Except.error e

/-- The outer loop `for pred in df[...]`: process each prediction in
order; a raised `KeyError` propagates immediately. -/
def countPreds : List (String × Nat) → List String →
    Except String (List (String × Nat))
  | cs, [] => Except.ok cs
  | cs, p :: ps =>
    match countTokens cs (pySplit p) with
    | Except.ok cs1 => countPreds cs1 ps
    | Except.error e => Except.error e

/-- Embeds the histogram loop of `results` (src/app.py lines 272-275):
for each prediction, split on comma-space and increment each token's
count, starting from `initCounts`; an unknown token raises `KeyError`. -/
def disease_counts (preds : List String) :
    Except String (List (String × Nat)) :=
  countPreds initCounts preds

/-- The sum of all counts of a histogram. -/
def sumCounts (counts : List (String × Nat)) : Nat :=
  (counts.map Prod.snd).sum

/-- True when the cell holds a number. -/
def Cell.isNum : Cell → Bool
  | Cell.num _ => true
  | Cell.str _ => false

/-- Numeric content of a cell (0 for string cells; only used on cells
that are numeric). -/
def Cell.toNum : Cell → ℚ
  | Cell.num q => q
  | Cell.str _ => 0

/-- A row all of whose present cells are numeric (no string cells). -/
def numericRow (r : Row) : Bool := r.all (fun p => p.2.isNum)

/-- The numeric feature value the rules compare: the present numeric
cell, or the default 0. -/
def Row.val (r : Row) (name : String) : ℚ := (r.getD name).toNum

/-- The fixed priority order of disease names, as appended by the source
(Heart Disease, then Diabetes, then Asthma, then Hypertension). -/
def priorityOrder : List String :=
  ["Heart Disease", "Diabetes", "Asthma", "Hypertension"]

/-- Spec-side reading of the four threshold rules, one per disease name
(any other name matches no rule). -/
def ruleMatches (r : Row) : String → Bool
  | "Heart Disease" =>
    decide (r.val "Age" > 50) && decide (r.val "Cholesterol" > 240)
  | "Diabetes" => decide (r.val "BMI" > 30)
  | "Asthma" => decide (r.val "Age" < 30) && decide (r.val "BMI" < 18)
  | "Hypertension" => decide (r.val "Blood Pressure" > 140)
  | _ => false

/-- Spec-side reading: the matched disease names, in priority order. -/
def matchedDiseases (r : Row) : List String :=
  priorityOrder.filter (ruleMatches r)

/-- Spec-side reading: the comma-space join of a label list, or the
literal "None" for the empty list. -/
def joinOrNone (l : List String) : String :=
  if l = [] then "None" else String.intercalate ", " l

/-- A concrete healthy row on which no rule fires. -/
def rowNone : Row := [("Age", Cell.num 40)]

theorem getD_isNum (r : Row) (hr : numericRow r = true) (n : String) :
    (r.getD n).isNum = true := by
  induction r with
  | nil => rfl
  | cons p rest ih =>
    obtain ⟨k, v⟩ := p
    simp only [numericRow, List.all_cons, Bool.and_eq_true] at hr
    simp only [Row.getD]
    split
    · exact hr.1
    · exact ih (by simpa [numericRow] using hr.2)

theorem getD_num (r : Row) (hr : numericRow r = true) (n : String) :
    r.getD n = Cell.num (r.val n) := by
  have h := getD_isNum r hr n
  unfold Row.val
  cases hc : r.getD n with
  | num q => simp [hc, Cell.toNum]
  | str s => rw [hc] at h; simp [Cell.isNum] at h

theorem andSC_ok (a b : Bool) :
    andSC (Except.ok a) (fun _ => Except.ok b) = Except.ok (a && b) := by
  cases a <;> rfl

theorem okBind {α β : Type} (a : α) (f : α → Except String β) :
    (Except.ok a >>= f) = f a := rfl

theorem predict_ok (r : Row) (hr : numericRow r = true) :
    predict_disease r = Except.ok (render
      (decide (r.val "Age" > 50) && decide (r.val "Cholesterol" > 240))
      (decide (r.val "BMI" > 30))
      (decide (r.val "Age" < 30) && decide (r.val "BMI" < 18))
      (decide (r.val "Blood Pressure" > 140))) := by
  rw [predict_disease]
  rw [getD_num r hr "Age", getD_num r hr "BMI", getD_num r hr "Cholesterol",
      getD_num r hr "Blood Pressure"]
  simp [cellGt, cellLt, andSC_ok, okBind, pure, Except.pure]

theorem matched_filter (r : Row) :
    matchedDiseases r =
      (if ruleMatches r "Heart Disease" then ["Heart Disease"] else []) ++
      (if ruleMatches r "Diabetes" then ["Diabetes"] else []) ++
      (if ruleMatches r "Asthma" then ["Asthma"] else []) ++
      (if ruleMatches r "Hypertension" then ["Hypertension"] else []) := by
  simp only [matchedDiseases, priorityOrder, List.filter]
  cases h1 : ruleMatches r "Heart Disease" <;>
    cases h2 : ruleMatches r "Diabetes" <;>
    cases h3 : ruleMatches r "Asthma" <;>
    cases h4 : ruleMatches r "Hypertension" <;> simp

theorem render_join (c1 c2 c3 c4 : Bool) :
    render c1 c2 c3 c4 = joinOrNone
      ((if c1 then ["Heart Disease"] else []) ++
       (if c2 then ["Diabetes"] else []) ++
       (if c3 then ["Asthma"] else []) ++
       (if c4 then ["Hypertension"] else [])) := by
  cases c1 <;> cases c2 <;> cases c3 <;> cases c4 <;> rfl

/-- C4: on every numeric row, the predictor returns exactly the
comma-space join of the matched disease names in the fixed priority
order Heart Disease, Diabetes, Asthma, Hypertension, or the literal
"None" when no rule matches. -/
theorem rule_output_is_priority_join (r : Row) (hr : numericRow r = true) :
    predict_disease r = Except.ok (joinOrNone (matchedDiseases r)) := by
  rw [predict_ok r hr, matched_filter r]
  rw [render_join]
  simp [ruleMatches]

/-- Witness for C4 at a concrete numeric row. -/
theorem rule_output_is_priority_join_witness :
    numericRow [("Age", Cell.num 55), ("Cholesterol", Cell.num 250)] = true ∧
    predict_disease [("Age", Cell.num 55), ("Cholesterol", Cell.num 250)] =
      Except.ok (joinOrNone
        (matchedDiseases [("Age", Cell.num 55), ("Cholesterol", Cell.num 250)])) :=
  ⟨by rfl, rule_output_is_priority_join _ (by rfl)⟩

/-- C7: the three concrete scenario rows map to "Heart Disease,
Hypertension", "Asthma" and "None" respectively. -/
theorem scenario_rows :
    predict_disease [("Age", Cell.num 55), ("BMI", Cell.num 28),
      ("Cholesterol", Cell.num 250), ("Blood Pressure", Cell.num 150)] =
      Except.ok "Heart Disease, Hypertension" ∧
    predict_disease [("Age", Cell.num 22), ("BMI", Cell.num 17)] =
      Except.ok "Asthma" ∧
    predict_disease [("Age", Cell.num 40), ("BMI", Cell.num 22),
      ("Cholesterol", Cell.num 200), ("Blood Pressure", Cell.num 120)] =
      Except.ok "None" :=
  ⟨rfl, rfl, rfl⟩

theorem predict_eq_of_features (r1 r2 : Row)
    (hA : r1.getD "Age" = r2.getD "Age")
    (hB : r1.getD "BMI" = r2.getD "BMI")
    (hC : r1.getD "Cholesterol" = r2.getD "Cholesterol")
    (hP : r1.getD "Blood Pressure" = r2.getD "Blood Pressure") :
    predict_disease r1 = predict_disease r2 := by
  rw [predict_disease, predict_disease, hA, hB, hC, hP]

/-- C9: the predictor is deterministic and depends only on the feature
values: two rows with equal values for the four features produce the
same output. -/
theorem predict_deterministic (r1 r2 : Row)
    (h : ∀ f ∈ ["Age", "BMI", "Cholesterol", "Blood Pressure"],
      r1.getD f = r2.getD f) :
    predict_disease r1 = predict_disease r2 :=
  predict_eq_of_features r1 r2
    (h "Age" (by simp)) (h "BMI" (by simp))
    (h "Cholesterol" (by simp)) (h "Blood Pressure" (by simp))

/-- Witness for C9: two different rows with the same feature values. -/
theorem predict_deterministic_witness :
    (∀ f ∈ ["Age", "BMI", "Cholesterol", "Blood Pressure"],
      Row.getD [("Age", Cell.num 55)] f =
        Row.getD [("Age", Cell.num 55), ("Other", Cell.str "x")] f) ∧
    predict_disease [("Age", Cell.num 55)] =
      predict_disease [("Age", Cell.num 55), ("Other", Cell.str "x")] :=
  ⟨by decide, predict_deterministic _ _ (by decide)⟩

theorem getD_cons_default (r : Row) (name : String)
    (h : r.getD name = Cell.num 0) (f : String) :
    Row.getD ((name, Cell.num 0) :: r) f = r.getD f := by
  by_cases hf : name = f
  · subst hf
    simp [Row.getD, h]
  · simp [Row.getD, hf]

theorem getD_nil_of_absent (r : Row) (name : String)
    (h : List.lookup name r = none) : r.getD name = Cell.num 0 := by
  induction r with
  | nil => rfl
  | cons p rest ih =>
    obtain ⟨k, v⟩ := p
    simp only [List.lookup] at h
    cases hk : (name == k) with
    | true =>
      rw [hk] at h
      simp at h
    | false =>
      rw [hk] at h
      have hne : k ≠ name := fun he => by simp [he] at hk
      simp [Row.getD, hne]
      exact ih h

/-- C6: a row missing a required feature column reads that feature as
numeric zero, the prediction is unchanged from the row with an explicit
zero in that column, and on numeric rows every rule is still evaluated
and a prediction is produced. -/
theorem missing_column_is_zero (r : Row) (name : String)
    (h : List.lookup name r = none) :
    r.getD name = Cell.num 0 ∧
    predict_disease ((name, Cell.num 0) :: r) = predict_disease r ∧
    (numericRow r = true → ∃ pred, predict_disease r = Except.ok pred) := by
  have h0 : r.getD name = Cell.num 0 := getD_nil_of_absent r name h
  refine ⟨h0, ?_, ?_⟩
  · exact predict_eq_of_features _ _
      (getD_cons_default r name h0 "Age")
      (getD_cons_default r name h0 "BMI")
      (getD_cons_default r name h0 "Cholesterol")
      (getD_cons_default r name h0 "Blood Pressure")
  · intro hr
    exact ⟨_, predict_ok r hr⟩

/-- Witness for C6: the Asthma scenario row with no Cholesterol column. -/
theorem missing_column_is_zero_witness :
    List.lookup "Cholesterol"
      ([("Age", Cell.num 22), ("BMI", Cell.num 17)] : Row) = none ∧
    Row.getD [("Age", Cell.num 22), ("BMI", Cell.num 17)] "Cholesterol" =
      Cell.num 0 ∧
    predict_disease (("Cholesterol", Cell.num 0) ::
      [("Age", Cell.num 22), ("BMI", Cell.num 17)]) =
      predict_disease [("Age", Cell.num 22), ("BMI", Cell.num 17)] ∧
    (numericRow [("Age", Cell.num 22), ("BMI", Cell.num 17)] = true →
      ∃ pred, predict_disease [("Age", Cell.num 22), ("BMI", Cell.num 17)] =
        Except.ok pred) := by
  have h := missing_column_is_zero
    [("Age", Cell.num 22), ("BMI", Cell.num 17)] "Cholesterol" (by rfl)
  exact ⟨by rfl, h.1, h.2.1, h.2.2⟩

/-- C5: for every valid page number in [1, total], the page slice has
length min(pageSize, len - (pageNumber-1)*pageSize); the total page
count is the ceiling of len / pageSize (characterized by the two
inequalities); prev is absent exactly for page 1 and next is absent
exactly for the last page, and otherwise they are the adjacent page
numbers. -/
theorem pagination_spec {α : Type} (df : List α) (page : Nat)
    (h1 : 1 ≤ page) (h2 : page ≤ total_pages df.length) :
    (paginate df page).length =
      min per_page (df.length - (page - 1) * per_page) ∧
    df.length ≤ total_pages df.length * per_page ∧
    total_pages df.length * per_page < df.length + per_page ∧
    (prevPage page = none ↔ page = 1) ∧
    (prevPage page = none ∨ prevPage page = some (page - 1)) ∧
    (nextPage page (total_pages df.length) = none ↔
      page = total_pages df.length) ∧
    (nextPage page (total_pages df.length) = none ∨
      nextPage page (total_pages df.length) = some (page + 1)) := by
  unfold total_pages per_page at *
  refine ⟨?_, by omega, by omega, ?_, ?_, ?_, ?_⟩
  · simp [paginate, per_page]
  · unfold prevPage
    split <;> simp <;> omega
  · unfold prevPage
    split <;> simp
  · unfold nextPage
    split <;> simp <;> omega
  · unfold nextPage
    split <;> simp

/-- Witness for C5: 25 records, page 3 of 3. -/
theorem pagination_spec_witness :
    (1 ≤ 3 ∧ 3 ≤ total_pages (List.range 25).length) ∧
    (paginate (List.range 25) 3).length =
      min per_page ((List.range 25).length - (3 - 1) * per_page) ∧
    (List.range 25).length ≤ total_pages (List.range 25).length * per_page ∧
    total_pages (List.range 25).length * per_page <
      (List.range 25).length + per_page ∧
    (prevPage 3 = none ↔ 3 = 1) ∧
    (prevPage 3 = none ∨ prevPage 3 = some (3 - 1)) ∧
    (nextPage 3 (total_pages (List.range 25).length) = none ↔
      3 = total_pages (List.range 25).length) ∧
    (nextPage 3 (total_pages (List.range 25).length) = none ∨
      nextPage 3 (total_pages (List.range 25).length) = some (3 + 1)) :=
  ⟨⟨by decide, by decide⟩,
    pagination_spec (List.range 25) 3 (by decide) (by decide)⟩

theorem runBatch_nil : runBatch [] = Except.ok [] := rfl

theorem runBatch_cons (r : Row) (rows : List Row) :
    runBatch (r :: rows) =
      (predict_disease r >>= fun p =>
        runBatch rows >>= fun ps => pure (p :: ps)) := by
  unfold runBatch
  rw [List.mapM_cons]

theorem runBatch_replicate_rowNone (n : Nat) :
    runBatch (List.replicate n rowNone) =
      Except.ok (List.replicate n "None") := by
  induction n with
  | zero => rfl
  | succ n ih =>
    rw [List.replicate_succ, runBatch_cons]
    have hnil : predict_disease rowNone = Except.ok "None" := by rfl
    rw [hnil, okBind, ih, okBind, List.replicate_succ]
    rfl

/-- Counterexample for C2: a batch of 501 rows (beyond the claimed
maximum of 500) is fully processed and returns 501 predictions; it is
not rejected before any row is processed. -/
theorem no_row_limit_at_501 :
    runBatch (List.replicate 501 rowNone) =
      Except.ok (List.replicate 501 "None") ∧
    (List.replicate 501 rowNone).length = 501 :=
  ⟨runBatch_replicate_rowNone 501, List.length_replicate 501 rowNone⟩

/-- C2 amended: `index` has no row-count precondition at all; a batch of
numeric rows of any length, beyond 500 included, is processed to
completion with one prediction per row, and no rejection ever occurs. -/
theorem no_row_limit (rows : List Row)
    (h : ∀ r ∈ rows, numericRow r = true) :
    ∃ preds, runBatch rows = Except.ok preds ∧
      preds.length = rows.length := by
  induction rows with
  | nil => exact ⟨[], rfl, rfl⟩
  | cons r rest ih =>
    obtain ⟨ps, hps, hlen⟩ := ih (fun x hx => h x (List.mem_cons_of_mem r hx))
    obtain ⟨p, hp⟩ : ∃ p, predict_disease r = Except.ok p :=
      ⟨_, predict_ok r (h r (List.mem_cons_self r rest))⟩
    refine ⟨p :: ps, ?_, by simp [hlen]⟩
    rw [runBatch_cons, hp, okBind, hps, okBind]
    rfl

/-- Witness for the amended C2 at a concrete batch of 501 rows. -/
theorem no_row_limit_witness :
    (∀ r ∈ List.replicate 501 rowNone, numericRow r = true) ∧
    ∃ preds, runBatch (List.replicate 501 rowNone) = Except.ok preds ∧
      preds.length = (List.replicate 501 rowNone).length :=
  ⟨fun r hr => by rw [List.eq_of_mem_replicate hr]; decide,
   no_row_limit _ (fun r hr => by rw [List.eq_of_mem_replicate hr]; decide)⟩

theorem predict_str_age (r : Row) (s : String)
    (h : r.getD "Age" = Cell.str s) :
    predict_disease r =
      Except.error ("TypeError: str > int comparison on " ++ s) := by
  rw [predict_disease, h]
  rfl

/-- Counterexample for C3: a single non-numeric Age cell in the middle
row aborts the whole batch with a raised TypeError; no prediction record
is produced for any row, including the well-formed ones. -/
theorem invalid_value_aborts_batch :
    runBatch [rowNone, [("Age", Cell.str "forty")], rowNone] =
      Except.error "TypeError: str > int comparison on forty" := by rfl

/-- C3 amended: a present but non-numeric value in a consulted column
(here Age) is not recovered at row granularity: the row raises a
TypeError that propagates out of the batch run, so the whole batch
fails and the remaining diseases and rows are not processed. -/
theorem invalid_value_fails_batch (pre post : List Row) (r : Row)
    (s : String) (hpre : ∀ p ∈ pre, numericRow p = true)
    (h : r.getD "Age" = Cell.str s) :
    runBatch (pre ++ r :: post) =
      Except.error ("TypeError: str > int comparison on " ++ s) := by
  induction pre with
  | nil =>
    rw [List.nil_append, runBatch_cons, predict_str_age r s h]
    rfl
  | cons p rest ih =>
    rw [List.cons_append, runBatch_cons,
      predict_ok p (hpre p (List.mem_cons_self p rest)), okBind,
      ih (fun x hx => hpre x (List.mem_cons_of_mem p hx))]
    rfl

/-- Witness for the amended C3 at a concrete three-row batch. -/
theorem invalid_value_fails_batch_witness :
    (∀ p ∈ [rowNone], numericRow p = true) ∧
    Row.getD [("Age", Cell.str "forty")] "Age" = Cell.str "forty" ∧
    runBatch ([rowNone] ++ [("Age", Cell.str "forty")] :: [rowNone]) =
      Except.error ("TypeError: str > int comparison on " ++ "forty") :=
  ⟨by decide, by rfl, invalid_value_fails_batch [rowNone] [rowNone]
    [("Age", Cell.str "forty")] "forty" (by decide) (by rfl)⟩

theorem incr_sum (key : String) :
    ∀ (cs cs' : List (String × Nat)), incr cs key = Except.ok cs' →
      sumCounts cs' = sumCounts cs + 1
  | [], _, h => by simp [incr] at h
  | (k0, v0) :: rest, cs', h => by
    rw [incr] at h
    split at h
    · injection h with h
      subst h
      simp [sumCounts]
      omega
    · cases hr : incr rest key with
      | ok r =>
        rw [hr] at h
        injection h with h
        subst h
        have := incr_sum key rest r hr
        simp [sumCounts] at this ⊢
        omega
      | error e => rw [hr] at h; exact Except.noConfusion h

theorem incr_keys (key : String) :
    ∀ (cs cs' : List (String × Nat)), incr cs key = Except.ok cs' →
      cs'.map Prod.fst = cs.map Prod.fst
  | [], _, h => by simp [incr] at h
  | (k0, v0) :: rest, cs', h => by
    rw [incr] at h
    split at h
    · injection h with h
      subst h
      rfl
    · cases hr : incr rest key with
      | ok r =>
        rw [hr] at h
        injection h with h
        subst h
        simp [incr_keys key rest r hr]
      | error e => rw [hr] at h; exact Except.noConfusion h

theorem incr_absent (key : String) :
    ∀ (cs : List (String × Nat)), key ∉ cs.map Prod.fst →
      incr cs key = Except.error ("KeyError: " ++ key)
  | [], _ => rfl
  | (k0, v0) :: rest, h => by
    rw [incr]
    have hk : ¬k0 = key := fun he => h (by simp [he])
    rw [if_neg hk, incr_absent key rest (fun hm => h (by simp [hm]))]

theorem incr_present (key : String) :
    ∀ (cs : List (String × Nat)), key ∈ cs.map Prod.fst →
      ∃ cs', incr cs key = Except.ok cs'
  | [], h => by simp at h
  | (k0, v0) :: rest, h => by
    rw [incr]
    by_cases hk : k0 = key
    · exact ⟨_, by rw [if_pos hk]⟩
    · have hm : key ∈ rest.map Prod.fst := by
        simp at h
        rcases h with h | h
        · exact absurd h.symm hk
        · simpa using h
      obtain ⟨r, hr⟩ := incr_present key rest hm
      exact ⟨(k0, v0) :: r, by rw [if_neg hk, hr]⟩

theorem incr_lookup_other (key l : String) (hne : l ≠ key) :
    ∀ (cs cs' : List (String × Nat)), incr cs key = Except.ok cs' →
      List.lookup l cs' = List.lookup l cs
  | [], _, h => by simp [incr] at h
  | (k0, v0) :: rest, cs', h => by
    rw [incr] at h
    split at h
    · injection h with h
      subst h
      rename_i hk
      subst hk
      simp [List.lookup, beq_eq_false_iff_ne.mpr hne]
    · cases hr : incr rest key with
      | ok r =>
        rw [hr] at h
        injection h with h
        subst h
        simp [List.lookup, incr_lookup_other key l hne rest r hr]
      | error e => rw [hr] at h; exact Except.noConfusion h

theorem countTokens_sum :
    ∀ (ts : List String) (cs cs' : List (String × Nat)),
      countTokens cs ts = Except.ok cs' →
      sumCounts cs' = sumCounts cs + ts.length
  | [], cs, cs', h => by
    injection h with h
    subst h
    simp
  | t :: ts, cs, cs', h => by
    rw [countTokens] at h
    cases hi : incr cs t with
    | ok cs1 =>
      rw [hi] at h
      have h1 := incr_sum t cs cs1 hi
      have h2 := countTokens_sum ts cs1 cs' h
      simp [h2, h1]
      omega
    | error e => rw [hi] at h; exact Except.noConfusion h

theorem countTokens_keys :
    ∀ (ts : List String) (cs cs' : List (String × Nat)),
      countTokens cs ts = Except.ok cs' →
      cs'.map Prod.fst = cs.map Prod.fst
  | [], cs, cs', h => by
    injection h with h
    subst h
    rfl
  | t :: ts, cs, cs', h => by
    rw [countTokens] at h
    cases hi : incr cs t with
    | ok cs1 =>
      rw [hi] at h
      rw [countTokens_keys ts cs1 cs' h, incr_keys t cs cs1 hi]
    | error e => rw [hi] at h; exact Except.noConfusion h

theorem countTokens_ok :
    ∀ (ts : List String) (cs : List (String × Nat)),
      (∀ t ∈ ts, t ∈ cs.map Prod.fst) →
      ∃ cs', countTokens cs ts = Except.ok cs'
  | [], cs, _ => ⟨cs, rfl⟩
  | t :: ts, cs, h => by
    obtain ⟨cs1, h1⟩ := incr_present t cs (h t (List.mem_cons_self t ts))
    have hk := incr_keys t cs cs1 h1
    obtain ⟨cs', h2⟩ := countTokens_ok ts cs1
      (fun x hx => by rw [hk]; exact h x (List.mem_cons_of_mem t hx))
    refine ⟨cs', ?_⟩
    rw [countTokens, h1]
    exact h2

theorem countTokens_err :
    ∀ (ts : List String) (cs : List (String × Nat)),
      (∃ t ∈ ts, t ∉ cs.map Prod.fst) →
      ∃ e, countTokens cs ts = Except.error e
  | [], cs, h => by simp at h
  | t :: ts, cs, h => by
    rw [countTokens]
    cases hi : incr cs t with
    | ok cs1 =>
      have hk := incr_keys t cs cs1 hi
      obtain ⟨x, hx, hxm⟩ := h
      rcases List.mem_cons.mp hx with he | hxts
      · rw [he] at hxm
        rw [incr_absent t cs hxm] at hi
        exact Except.noConfusion hi
      · exact countTokens_err ts cs1 ⟨x, hxts, by rw [hk]; exact hxm⟩
    | error e => exact ⟨e, rfl⟩

theorem countTokens_lookup_other (l : String) :
    ∀ (ts : List String) (cs cs' : List (String × Nat)),
      countTokens cs ts = Except.ok cs' → l ∉ ts →
      List.lookup l cs' = List.lookup l cs
  | [], cs, cs', h, _ => by
    injection h with h
    subst h
    rfl
  | t :: ts, cs, cs', h, hl => by
    rw [countTokens] at h
    cases hi : incr cs t with
    | ok cs1 =>
      rw [hi] at h
      have hne : l ≠ t := fun he => hl (he ▸ List.mem_cons_self t ts)
      rw [countTokens_lookup_other l ts cs1 cs' h
        (fun hm => hl (List.mem_cons_of_mem t hm)),
        incr_lookup_other t l hne cs cs1 hi]
    | error e => rw [hi] at h; exact Except.noConfusion h

theorem countPreds_sum :
    ∀ (ps : List String) (cs cs' : List (String × Nat)),
      countPreds cs ps = Except.ok cs' →
      sumCounts cs' = sumCounts cs + (ps.map (fun p => (pySplit p).length)).sum
  | [], cs, cs', h => by
    injection h with h
    subst h
    simp
  | p :: ps, cs, cs', h => by
    rw [countPreds] at h
    cases hi : countTokens cs (pySplit p) with
    | ok cs1 =>
      rw [hi] at h
      have h1 := countTokens_sum (pySplit p) cs cs1 hi
      have h2 := countPreds_sum ps cs1 cs' h
      simp [h2, h1]
      omega
    | error e => rw [hi] at h; exact Except.noConfusion h

theorem countPreds_keys :
    ∀ (ps : List String) (cs cs' : List (String × Nat)),
      countPreds cs ps = Except.ok cs' →
      cs'.map Prod.fst = cs.map Prod.fst
  | [], cs, cs', h => by
    injection h with h
    subst h
    rfl
  | p :: ps, cs, cs', h => by
    rw [countPreds] at h
    cases hi : countTokens cs (pySplit p) with
    | ok cs1 =>
      rw [hi] at h
      rw [countPreds_keys ps cs1 cs' h, countTokens_keys (pySplit p) cs cs1 hi]
    | error e => rw [hi] at h; exact Except.noConfusion h

theorem countPreds_ok :
    ∀ (ps : List String) (cs : List (String × Nat)),
      (∀ p ∈ ps, ∀ t ∈ pySplit p, t ∈ cs.map Prod.fst) →
      ∃ cs', countPreds cs ps = Except.ok cs'
  | [], cs, _ => ⟨cs, rfl⟩
  | p :: ps, cs, h => by
    obtain ⟨cs1, h1⟩ := countTokens_ok (pySplit p) cs
      (h p (List.mem_cons_self p ps))
    have hk := countTokens_keys (pySplit p) cs cs1 h1
    obtain ⟨cs', h2⟩ := countPreds_ok ps cs1
      (fun x hx t ht => by
        rw [hk]
        exact h x (List.mem_cons_of_mem p hx) t ht)
    refine ⟨cs', ?_⟩
    rw [countPreds, h1]
    exact h2

theorem countPreds_err :
    ∀ (ps : List String) (cs : List (String × Nat)),
      (∃ p ∈ ps, ∃ t ∈ pySplit p, t ∉ cs.map Prod.fst) →
      ∃ e, countPreds cs ps = Except.error e
  | [], cs, h => by simp at h
  | p :: ps, cs, h => by
    rw [countPreds]
    cases hi : countTokens cs (pySplit p) with
    | ok cs1 =>
      have hk := countTokens_keys (pySplit p) cs cs1 hi
      obtain ⟨x, hx, t, ht, htm⟩ := h
      rcases List.mem_cons.mp hx with he | hxps
      · rw [he] at ht
        obtain ⟨e, he2⟩ := countTokens_err (pySplit p) cs ⟨t, ht, htm⟩
        rw [he2] at hi
        exact Except.noConfusion hi
      · exact countPreds_err ps cs1 ⟨x, hxps, t, ht, by rw [hk]; exact htm⟩
    | error e => exact ⟨e, rfl⟩

theorem countPreds_lookup_other (l : String) :
    ∀ (ps : List String) (cs cs' : List (String × Nat)),
      countPreds cs ps = Except.ok cs' → (∀ p ∈ ps, l ∉ pySplit p) →
      List.lookup l cs' = List.lookup l cs
  | [], cs, cs', h, _ => by
    injection h with h
    subst h
    rfl
  | p :: ps, cs, cs', h, hl => by
    rw [countPreds] at h
    cases hi : countTokens cs (pySplit p) with
    | ok cs1 =>
      rw [hi] at h
      rw [countPreds_lookup_other l ps cs1 cs' h
          (fun x hx => hl x (List.mem_cons_of_mem p hx)),
        countTokens_lookup_other l (pySplit p) cs cs1 hi
          (hl p (List.mem_cons_self p ps))]
    | error e => rw [hi] at h; exact Except.noConfusion h

theorem errBind {α β : Type} (e : String) (f : α → Except String β) :
    ((Except.error e : Except String α) >>= f) = Except.error e := rfl

theorem predict_shape (r : Row) (pred : String)
    (h : predict_disease r = Except.ok pred) :
    ∃ b1 b2 b3 b4, pred = render b1 b2 b3 b4 := by
  rw [predict_disease] at h
  cases h1 : andSC (cellGt (r.getD "Age") 50)
      (fun _ => cellGt (r.getD "Cholesterol") 240) with
  | error e => rw [h1, errBind] at h; exact Except.noConfusion h
  | ok c1 =>
    rw [h1, okBind] at h
    cases h2 : cellGt (r.getD "BMI") 30 with
    | error e => rw [h2, errBind] at h; exact Except.noConfusion h
    | ok c2 =>
      rw [h2, okBind] at h
      cases h3 : andSC (cellLt (r.getD "Age") 30)
          (fun _ => cellLt (r.getD "BMI") 18) with
      | error e => rw [h3, errBind] at h; exact Except.noConfusion h
      | ok c3 =>
        rw [h3, okBind] at h
        cases h4 : cellGt (r.getD "Blood Pressure") 140 with
        | error e => rw [h4, errBind] at h; exact Except.noConfusion h
        | ok c4 =>
          rw [h4, okBind] at h
          injection h with h
          exact ⟨c1, c2, c3, c4, h.symm⟩

theorem render_tokens (b1 b2 b3 b4 : Bool) :
    ∀ t ∈ pySplit (render b1 b2 b3 b4), t ∈ initCounts.map Prod.fst := by
  cases b1 <;> cases b2 <;> cases b3 <;> cases b4 <;> decide

theorem batch_shape :
    ∀ (rows : List Row) (preds : List String),
      runBatch rows = Except.ok preds →
      ∀ p ∈ preds, ∃ b1 b2 b3 b4, p = render b1 b2 b3 b4
  | [], preds, h => by
    have h2 : (Except.ok ([] : List String) : Except String (List String)) =
        Except.ok preds := h
    rw [← Except.ok.inj h2]
    intro p hp
    simp at hp
  | r :: rows, preds, h => by
    rw [runBatch_cons] at h
    cases hp : predict_disease r with
    | error e => rw [hp, errBind] at h; exact Except.noConfusion h
    | ok p0 =>
      rw [hp, okBind] at h
      cases hb : runBatch rows with
      | error e => rw [hb, errBind] at h; exact Except.noConfusion h
      | ok ps =>
        rw [hb, okBind] at h
        injection h with h
        rw [← h]
        intro p hp2
        rcases List.mem_cons.mp hp2 with he | hm
        · rw [he]
          exact predict_shape r p0 hp
        · exact batch_shape rows ps hb p hm

/-- C10: every prediction produced by a successful batch run splits into
tokens drawn from the five histogram keys, so the histogram computation
on such a result set never raises. -/
theorem batch_tokens_known (rows : List Row) (preds : List String)
    (h : runBatch rows = Except.ok preds) :
    (∀ p ∈ preds, ∀ t ∈ pySplit p, t ∈ initCounts.map Prod.fst) ∧
    ∃ cs, disease_counts preds = Except.ok cs := by
  have hall : ∀ p ∈ preds, ∀ t ∈ pySplit p, t ∈ initCounts.map Prod.fst := by
    intro p hp t ht
    obtain ⟨b1, b2, b3, b4, hb⟩ := batch_shape rows preds h p hp
    rw [hb] at ht
    exact render_tokens b1 b2 b3 b4 t ht
  exact ⟨hall, countPreds_ok preds initCounts hall⟩

/-- Witness for C10 at a concrete one-row batch. -/
theorem batch_tokens_known_witness :
    runBatch [rowNone] = Except.ok ["None"] ∧
    (∀ p ∈ (["None"] : List String), ∀ t ∈ pySplit p,
      t ∈ initCounts.map Prod.fst) ∧
    ∃ cs, disease_counts ["None"] = Except.ok cs :=
  ⟨by rfl, (batch_tokens_known [rowNone] ["None"] (by rfl)).1,
    (batch_tokens_known [rowNone] ["None"] (by rfl)).2⟩

/-- C8: the histogram starts every known label at count 0, so a label
occurring in no prediction is still reported with count 0 (not absent),
and any split token outside the known label set makes the whole
computation fail with a KeyError. -/
theorem histogram_init_zero_and_unknown_fails (preds : List String) :
    (∀ cs, disease_counts preds = Except.ok cs →
      cs.map Prod.fst = initCounts.map Prod.fst ∧
      ∀ label ∈ initCounts.map Prod.fst,
        (∀ p ∈ preds, label ∉ pySplit p) →
        List.lookup label cs = some 0) ∧
    ((∃ p ∈ preds, ∃ t ∈ pySplit p, t ∉ initCounts.map Prod.fst) →
      ∃ e, disease_counts preds = Except.error e) := by
  constructor
  · intro cs h
    refine ⟨countPreds_keys preds initCounts cs h, ?_⟩
    intro label hlabel hnot
    rw [countPreds_lookup_other label preds initCounts cs h hnot]
    have hz : ∀ l ∈ initCounts.map Prod.fst,
        List.lookup l initCounts = some 0 := by decide
    exact hz label hlabel
  · intro hbad
    exact countPreds_err preds initCounts hbad

/-- Witness for C8: an unknown label makes the histogram fail. -/
theorem histogram_init_zero_and_unknown_fails_witness :
    ∃ e, disease_counts ["Flu"] = Except.error e :=
  (histogram_init_zero_and_unknown_fails ["Flu"]).2 (by decide)

/-- Counterexample for C1: the well-formed two-label prediction produced
by the predictor itself contributes two tokens to the histogram, so the
sum of counts is 2 for a result set of length 1. -/
theorem histogram_sum_cex :
    predict_disease [("Age", Cell.num 55), ("Cholesterol", Cell.num 250),
      ("Blood Pressure", Cell.num 150)] =
      Except.ok "Heart Disease, Hypertension" ∧
    disease_counts ["Heart Disease, Hypertension"] =
      Except.ok [("Heart Disease", 1), ("Asthma", 0), ("Diabetes", 0),
        ("Hypertension", 1), ("None", 0)] ∧
    sumCounts [("Heart Disease", 1), ("Asthma", 0), ("Diabetes", 0),
      ("Hypertension", 1), ("None", 0)] = 2 ∧
    (["Heart Disease, Hypertension"] : List String).length = 1 :=
  ⟨by rfl, by rfl, by rfl, by rfl⟩

theorem len_map_one (f : String → Nat) :
    ∀ (ps : List String), (∀ p ∈ ps, f p = 1) → (ps.map f).sum = ps.length
  | [], _ => rfl
  | p :: ps, h => by
    simp [len_map_one f ps (fun x hx => h x (List.mem_cons_of_mem p hx)),
      h p (List.mem_cons_self p ps)]
    omega

/-- C1 amended: the sum of the histogram counts equals the total number
of comma-space split tokens over all predictions; it equals the number
of records exactly when every record carries a single label, which fails
for multi-label predictions such as "Heart Disease, Hypertension". -/
theorem histogram_sum_is_token_count (preds : List String)
    (cs : List (String × Nat)) (h : disease_counts preds = Except.ok cs) :
    sumCounts cs = (preds.map (fun p => (pySplit p).length)).sum ∧
    ((∀ p ∈ preds, (pySplit p).length = 1) →
      sumCounts cs = preds.length) := by
  have h1 := countPreds_sum preds initCounts cs h
  have h0 : sumCounts initCounts = 0 := rfl
  rw [h0, Nat.zero_add] at h1
  refine ⟨h1, fun hone => ?_⟩
  rw [h1, len_map_one _ preds hone]

/-- Witness for the amended C1 at a concrete two-record result set. -/
theorem histogram_sum_is_token_count_witness :
    disease_counts ["None", "Diabetes"] =
      Except.ok [("Heart Disease", 0), ("Asthma", 0), ("Diabetes", 1),
        ("Hypertension", 0), ("None", 1)] ∧
    sumCounts [("Heart Disease", 0), ("Asthma", 0), ("Diabetes", 1),
        ("Hypertension", 0), ("None", 1)] =
      ((["None", "Diabetes"] : List String).map
        (fun p => (pySplit p).length)).sum ∧
    ((∀ p ∈ (["None", "Diabetes"] : List String), (pySplit p).length = 1) →
      sumCounts [("Heart Disease", 0), ("Asthma", 0), ("Diabetes", 1),
        ("Hypertension", 0), ("None", 1)] =
        (["None", "Diabetes"] : List String).length) :=
  ⟨by rfl,
   (histogram_sum_is_token_count ["None", "Diabetes"]
     [("Heart Disease", 0), ("Asthma", 0), ("Diabetes", 1),
      ("Hypertension", 0), ("None", 1)] (by rfl)).1,
   (histogram_sum_is_token_count ["None", "Diabetes"]
     [("Heart Disease", 0), ("Asthma", 0), ("Diabetes", 1),
      ("Hypertension", 0), ("None", 1)] (by rfl)).2⟩
